import Mathlib

/-!
Verification of the hsk-bot vocabulary-practice engine
(`src/hsk_bot/game.py`, `src/hsk_bot/models.py`).

The Python engine is shallowly embedded below: Python `str` becomes
`String`, Python `int` becomes `Int`, the `active_sessions` dict becomes
an association list over `Int` keys, `random.choice` becomes an explicit
index oracle, and raising operations return `Option`/`Except`.
Python float arithmetic (`UserState.accuracy`) is modelled by exact
rational arithmetic over `ℚ`.

The repository's `models.py` at HEAD is a stale revision: it declares a
two-way `PracticeMode` and a `Word` without `part_of_speech`, while
`game.py` and `bot.py` reference the three-way members
`PINYIN_TO_ENGLISH` / `CHARACTERS_TO_ENGLISH` / `ENGLISH_TO_CHARACTERS`
and read `word.part_of_speech`.  The definitions whose doc comments
start with `Modelled from the spec:` supply the newer model declarations
that `game.py` requires but that are missing from `src/`; the stale
declarations actually present in `models.py` are kept alongside under
`...Src` names for comparison.
-/

namespace HskBot

/-- The two-way practice-mode enumeration that `src/hsk_bot/models.py`
actually declares at HEAD (`CHINESE_TO_ENGLISH = "chinese"`,
`ENGLISH_TO_CHINESE = "english"`): the superseded shape. -/
inductive PracticeModeSrc where
  | CHINESE_TO_ENGLISH
  | ENGLISH_TO_CHINESE
deriving DecidableEq, Fintype

/-- The string value carried by each `PracticeModeSrc` member
(`str, Enum` in `models.py`). -/
def PracticeModeSrc.value : PracticeModeSrc → String
  | .CHINESE_TO_ENGLISH => "chinese"
  | .ENGLISH_TO_CHINESE => "english"

/-- The field names declared on the `Word` pydantic model in
`src/hsk_bot/models.py` at HEAD (lines 17-29): `chinese`, `pinyin`,
`english`, `hsk_level` — and no part-of-speech field. -/
def wordSrcFields : List String := ["chinese", "pinyin", "english", "hsk_level"]

/-- Modelled from the spec: the three-way quiz-direction enumeration
{script→gloss, romanization→gloss, gloss→script}.  `game.py` and
`bot.py` reference the members `PINYIN_TO_ENGLISH`,
`CHARACTERS_TO_ENGLISH` and (implicitly, as the remaining case)
`ENGLISH_TO_CHARACTERS`, but the declaration is missing from
`src/hsk_bot/models.py`, which still holds the superseded two-way
enum. -/
inductive PracticeMode where
  | PINYIN_TO_ENGLISH
  | CHARACTERS_TO_ENGLISH
  | ENGLISH_TO_CHARACTERS
deriving DecidableEq, Fintype

/-- Modelled from the spec: the `Word` record including the
part-of-speech tag field that `game.py` constructs
(`load_vocabulary`, lines 78-84) and reads
(`_generate_word_variations`, line 157), but which the stale
`models.py` `Word` no longer declares.  The other four fields are as
declared in `models.py`. -/
structure Word where
  chinese : String
  pinyin : String
  english : String
  part_of_speech : String
  hsk_level : Int
deriving DecidableEq

/-- `UserState` from `src/hsk_bot/models.py` lines 32-50, with the
practice mode taken from the spec-modelled three-way enum. -/
structure UserState where
  user_id : Int
  hsk_level : Int
  practice_mode : PracticeMode
  current_word : Option Word := none
  score : Int := 0
  total_attempts : Int := 0
  correct_attempts : Int := 0
deriving DecidableEq

/-- `UserState.accuracy` (`models.py` lines 52-61):
`0.0` when `total_attempts == 0`, else `(correct/total)*100`.
Python float division is modelled by exact division in `ℚ`. -/
def UserState.accuracy (u : UserState) : ℚ :=
  if u.total_attempts = 0 then 0
  else ((u.correct_attempts : ℚ) / (u.total_attempts : ℚ)) * 100

/-- `GameSession` from `src/hsk_bot/models.py` lines 64-74.  The
`time.time()` float timestamp is modelled as an abstract integer
tick (no claim depends on it). -/
structure GameSession where
  user_state : UserState
  vocabulary : List Word := []
  start_time : Int
deriving DecidableEq

/-- The `VocabularyGame` engine state (`game.py` line 27): the
`active_sessions` dict from user id to session, modelled as an
association list looked up and updated Python-dict style. -/
structure VocabularyGame where
  active_sessions : List (Int × GameSession) := []
deriving DecidableEq

/-- `dict.get(key)`: first binding of the key, if any. -/
def dictGet (d : List (Int × GameSession)) (k : Int) : Option GameSession :=
  match d with
  | [] => none
  | (k', v) :: rest => if k' = k then some v else dictGet rest k

/-- `dict[key] = value`: replace the existing binding in place, else
append a new one (Python dicts keep insertion order). -/
def dictSet (d : List (Int × GameSession)) (k : Int) (v : GameSession) :
    List (Int × GameSession) :=
  match d with
  | [] => [(k, v)]
  | (k', v') :: rest =>
      if k' = k then (k, v) :: rest else (k', v') :: dictSet rest k v

/-- `dict.pop(key, None)`: remove the binding and return its value,
or return `none` leaving the dict unchanged. -/
def dictPop (d : List (Int × GameSession)) (k : Int) :
    List (Int × GameSession) × Option GameSession :=
  match d with
  | [] => ([], none)
  | (k', v) :: rest =>
      if k' = k then (rest, some v)
      else
        let r := dictPop rest k
        ((k', v) :: r.1, r.2)

/-- Python `str.lower()` restricted to the ASCII range (the engine only
ever lowercases Latin glosses and user input; CJK text is unaffected
by either).  Implemented on the underlying character list so that the
kernel can evaluate it. -/
def lower (s : String) : String := String.mk (s.data.map Char.toLower)

/-- Whitespace trimming on a character list: drop whitespace from the
front, then from the back. -/
def trimChars (l : List Char) : List Char :=
  ((l.dropWhile Char.isWhitespace).reverse.dropWhile Char.isWhitespace).reverse

/-- Python `str.strip()`: trim whitespace from both ends. -/
def strip (s : String) : String := String.mk (trimChars s.data)

/-- Split a character list at every character satisfying `p`, keeping
empty pieces (the behaviour of Python `str.split(sep)` per separator
occurrence). -/
def splitIf (p : Char → Bool) : List Char → List (List Char)
  | [] => [[]]
  | c :: rest =>
      match splitIf p rest with
      | [] => if p c then [[], []] else [[c]]
      | h :: t => if p c then [] :: h :: t else (c :: h) :: t

/-- Python `s.split(',')`: split at every comma, keeping empty pieces. -/
def pySplitComma (s : String) : List String :=
  (splitIf (fun c => c = ',') s.data).map String.mk

/-- Python `str.split()` with no argument: split on whitespace,
dropping empty pieces. -/
def pySplitWs (s : String) : List String :=
  ((splitIf Char.isWhitespace s.data).filter (fun t => t ≠ [])).map String.mk

/-- Python `s.startswith(pre)`. -/
def strStartsWith (s pre : String) : Bool := pre.data.isPrefixOf s.data

/-- Python `s.endswith(suf)`. -/
def strEndsWith (s suf : String) : Bool := suf.data.isSuffixOf s.data

/-- Drop the first `n` characters of a string. -/
def strDrop (s : String) (n : Nat) : String := String.mk (s.data.drop n)

/-- One fuel-bounded pass of Python `str.replace(pat, rep)` (all
occurrences, left to right, non-overlapping); the fuel is consumed one
unit per emitted position, so `l.length` units always suffice. -/
def replaceFuel (pat rep : List Char) : Nat → List Char → List Char
  | _, [] => []
  | 0, l => l
  | fuel + 1, c :: rest =>
      if pat.isPrefixOf (c :: rest) then
        rep ++ replaceFuel pat rep fuel ((c :: rest).drop pat.length)
      else c :: replaceFuel pat rep fuel rest

/-- Python `s.replace(pat, rep)` for a non-empty pattern (the engine
only ever replaces the non-empty literals `"measure word"`,
`"a measure word"`, `"for"` and the leading `"to "`). -/
def strReplace (s pat rep : String) : String :=
  if pat.data = [] then s
  else String.mk (replaceFuel pat.data rep.data s.data.length s.data)

/-- The per-sense body of the loop in
`VocabularyGame._generate_word_variations` (`game.py` lines 148-181):
seed with the trimmed sense and its whitespace tokens, then apply the
part-of-speech rule.  Under the `startswith('to ')` guard, Python's
`replace('to ', '', 1)` removes exactly the three-character leading
marker, embedded as `String.drop 3`. -/
def variationsOfSense (pos : String) (translation : String) : List String :=
  let base := translation :: pySplitWs translation
  if pos = "verb" then
    base ++ [if strStartsWith translation "to " then strDrop translation 3
             else "to " ++ translation]
  else if pos = "noun" then
    base ++ (["a", "an", "the"].map (fun article => article ++ " " ++ translation))
      ++ (if strEndsWith translation "s" then [] else [translation ++ "s"])
  else if pos = "measure word" then
    base ++ [strip (strReplace translation "measure word" ""),
             strip (strReplace translation "a measure word" ""),
             strip (strReplace translation "for" "")]
  else base

/-- `VocabularyGame._generate_word_variations` (`game.py` lines
136-182): split the lowercased gloss on commas and collect every
sense's variations.  The Python `set` is modelled as a list; only
membership is ever consumed. -/
def generate_word_variations (w : Word) : List String :=
  (pySplitComma (lower w.english)).flatMap
    (fun translation => variationsOfSense (lower w.part_of_speech) (strip translation))

/-- The looser second matching pass of `check_answer` (`game.py` lines
219-223): drop the tokens `a`, `an`, `the`, `to` from the user's
answer, re-join with single spaces, and trim. -/
def removeArticles (s : String) : String :=
  strip (String.intercalate " "
    ((pySplitWs s).filter (fun w => ¬ (["a", "an", "the", "to"].contains w))))

/-- The error kinds `load_vocabulary` can raise (`game.py` lines
38-73): `ValueError` on an out-of-range level, `FileNotFoundError`
when the level's CSV is absent, `ValueError` on missing columns.
Row-level failures are skipped, not raised. -/
inductive LoadError where
  | invalidLevel
  | fileNotFound
deriving DecidableEq

/-- `VocabularyGame.load_vocabulary` (`game.py` lines 29-90).  The
level guard (`if not 1 <= hsk_level <= 6: raise ValueError`) comes
before any file access; the pandas CSV read and per-row `Word`
construction are abstracted as a per-level table of already-parsed
words (`source`), consulted only after the guard passes. -/
def load_vocabulary (source : Int → Option (List Word)) (hsk_level : Int) :
    Except LoadError (List Word) :=
  if ¬ (1 ≤ hsk_level ∧ hsk_level ≤ 6) then .error .invalidLevel
  else
    match source hsk_level with
    | none => .error .fileNotFound
    | some words => .ok words

/-- `VocabularyGame.start_session` (`game.py` lines 92-117): build the
fresh zero-counter `UserState` (whose pydantic `ge=1, le=6` bound on
the level coincides with `load_vocabulary`'s guard), load the
vocabulary snapshot, and store the new session for the user,
replacing any existing one. -/
def start_session (source : Int → Option (List Word)) (g : VocabularyGame)
    (user_id hsk_level : Int) (mode : PracticeMode) (now : Int) :
    Except LoadError (VocabularyGame × GameSession) :=
  if ¬ (1 ≤ hsk_level ∧ hsk_level ≤ 6) then .error .invalidLevel
  else
    match load_vocabulary source hsk_level with
    | .error e => .error e
    | .ok vocabulary =>
        let user_state : UserState :=
          { user_id := user_id, hsk_level := hsk_level, practice_mode := mode }
        let session : GameSession :=
          { user_state := user_state, vocabulary := vocabulary, start_time := now }
        .ok ({ active_sessions := dictSet g.active_sessions user_id session }, session)

/-- `VocabularyGame.get_next_word` (`game.py` lines 119-134): `none`
when the user has no session or its vocabulary is empty; otherwise
pick a word (`random.choice` modelled by the `choice` index oracle,
reduced mod the list length) and set it as the current word. -/
def get_next_word (choice : Nat) (g : VocabularyGame) (user_id : Int) :
    VocabularyGame × Option Word :=
  match dictGet g.active_sessions user_id with
  | none => (g, none)
  | some session =>
      if h : session.vocabulary.length = 0 then (g, none)
      else
        let word := session.vocabulary.get
          ⟨choice % session.vocabulary.length,
           Nat.mod_lt _ (Nat.pos_of_ne_zero h)⟩
        let session' : GameSession :=
          { session with user_state := { session.user_state with current_word := some word } }
        ({ active_sessions := dictSet g.active_sessions user_id session' }, some word)

/-- The grading branch of `check_answer` (`game.py` lines 209-228):
variation membership with the looser article-stripping retry for the
two to-English modes, comparison against the trimmed script form for
`ENGLISH_TO_CHARACTERS`.  `user_answer` is the already lowercased and
trimmed input. -/
def grade_answer (mode : PracticeMode) (current_word : Word) (user_answer : String) :
    Bool :=
  if mode = PracticeMode.PINYIN_TO_ENGLISH ∨
     mode = PracticeMode.CHARACTERS_TO_ENGLISH then
    let expected_variations := generate_word_variations current_word
    if expected_variations.contains user_answer then true
    else expected_variations.contains (removeArticles user_answer)
  else
    user_answer == strip current_word.chinese

/-- The statistics update of `check_answer` (`game.py` lines 230-234):
`total_attempts` always increments; `correct_attempts` and `score`
increment exactly when the verdict is correct. -/
def record_attempt (st : UserState) (is_correct : Bool) : UserState :=
  { st with
    total_attempts := st.total_attempts + 1,
    correct_attempts :=
      if is_correct then st.correct_attempts + 1 else st.correct_attempts,
    score := if is_correct then st.score + 1 else st.score }

/-- `VocabularyGame.check_answer` (`game.py` lines 184-236): `none`
models the `ValueError("No active session or current word")` raise;
otherwise grade the lowercased, trimmed answer according to the
session's practice mode, bump the counters, and return the verdict. -/
def check_answer (g : VocabularyGame) (user_id : Int) (answer : String) :
    Option (VocabularyGame × Bool) :=
  match dictGet g.active_sessions user_id with
  | none => none
  | some session =>
      match session.user_state.current_word with
      | none => none
      | some current_word =>
          let is_correct :=
            grade_answer session.user_state.practice_mode current_word
              (strip (lower answer))
          some ({ active_sessions :=
                    dictSet g.active_sessions user_id
                      { session with
                        user_state := record_attempt session.user_state is_correct } },
                is_correct)

/-- `VocabularyGame.end_session` (`game.py` lines 238-248):
`dict.pop(user_id, None)` and return the final `UserState`, or `none`
as a no-op when no session exists. -/
def end_session (g : VocabularyGame) (user_id : Int) :
    VocabularyGame × Option UserState :=
  let r := dictPop g.active_sessions user_id
  ({ active_sessions := r.1 }, r.2.map (fun s => s.user_state))

/-- A single step of the spec's single-user answer/draw interleaving:
either a `check_answer` submission or a `get_next_word` draw (the
draw's random choice given as an explicit index oracle). -/
inductive TraceOp where
  | checkAns (answer : String)
  | nextWord (choice : Nat)

/-- Run a sequence of `check_answer` / `get_next_word` calls for one
user, collecting the verdicts of the `check_answer` calls that return
one (a call raising `No active session or current word` updates
nothing and contributes no verdict, exactly as in `check_answer`). -/
def runTrace (uid : Int) : VocabularyGame → List TraceOp → VocabularyGame × List Bool
  | g, [] => (g, [])
  | g, TraceOp.nextWord c :: ops => runTrace uid (get_next_word c g uid).1 ops
  | g, TraceOp.checkAns a :: ops =>
      match check_answer g uid a with
      | none => runTrace uid g ops
      | some (g', b) =>
          let r := runTrace uid g' ops
          (r.1, b :: r.2)

/-- The attempt counters of a user's session:
`(total_attempts, correct_attempts)`. -/
def sessionCounters (g : VocabularyGame) (uid : Int) : Option (Int × Int) :=
  (dictGet g.active_sessions uid).map
    (fun s => (s.user_state.total_attempts, s.user_state.correct_attempts))

/-- The per-session counter invariant:
`0 ≤ score = correct_attempts ≤ total_attempts`. -/
def InvState (u : UserState) : Prop :=
  0 ≤ u.score ∧ u.score = u.correct_attempts ∧
    u.correct_attempts ≤ u.total_attempts

/-- The counter invariant, over every session the engine holds. -/
def InvGame (g : VocabularyGame) : Prop :=
  ∀ e ∈ g.active_sessions, InvState e.2.user_state

/-- Engine states reachable from the freshly constructed engine
(`VocabularyGame.__init__`, empty session dict) by any interleaving of
the four public operations for any users, levels, modes, vocabulary
sources and random draws. -/
inductive Reachable : VocabularyGame → Prop where
  | init : Reachable { active_sessions := [] }
  | start (source : Int → Option (List Word)) (g : VocabularyGame)
      (uid lvl : Int) (mode : PracticeMode) (now : Int)
      (g' : VocabularyGame) (s : GameSession) :
      Reachable g → start_session source g uid lvl mode now = .ok (g', s) →
      Reachable g'
  | next (c : Nat) (g : VocabularyGame) (uid : Int) :
      Reachable g → Reachable (get_next_word c g uid).1
  | answer (g : VocabularyGame) (uid : Int) (a : String)
      (g' : VocabularyGame) (b : Bool) :
      Reachable g → check_answer g uid a = some (g', b) → Reachable g'
  | stop (g : VocabularyGame) (uid : Int) :
      Reachable g → Reachable (end_session g uid).1

/-- The spec's verb example word: {script 回, romanized huí, gloss
"return", pos verb, level 1}. -/
def exWordReturn : Word :=
  { chinese := "回", pinyin := "huí", english := "return",
    part_of_speech := "verb", hsk_level := 1 }

/-- The spec's noun example word: {script 猫, gloss "cat", pos noun}. -/
def exWordCat : Word :=
  { chinese := "猫", pinyin := "māo", english := "cat",
    part_of_speech := "noun", hsk_level := 1 }

/-- The spec's gloss→script example word: {script 去, gloss "go"}. -/
def exWordGo : Word :=
  { chinese := "去", pinyin := "qù", english := "go",
    part_of_speech := "verb", hsk_level := 1 }

/-- A word whose script form contains an uppercase ASCII letter,
exercising the case handling of the gloss→script comparison. -/
def exWordUpper : Word :=
  { chinese := "Q", pinyin := "Q", english := "question",
    part_of_speech := "noun", hsk_level := 1 }

/-- A session fixture: the given word is the current word and the whole
vocabulary. -/
def mkSession (mode : PracticeMode) (w : Word) : GameSession :=
  { user_state :=
      { user_id := 1, hsk_level := 1, practice_mode := mode,
        current_word := some w },
    vocabulary := [w], start_time := 0 }

/-- Engine fixture for the verb example, direction script→gloss. -/
def gVerb : VocabularyGame :=
  { active_sessions := [(1, mkSession PracticeMode.CHARACTERS_TO_ENGLISH exWordReturn)] }

/-- Engine fixture for the noun example, direction romanization→gloss. -/
def gNoun : VocabularyGame :=
  { active_sessions := [(1, mkSession PracticeMode.PINYIN_TO_ENGLISH exWordCat)] }

/-- Engine fixture for the gloss→script example. -/
def gGo : VocabularyGame :=
  { active_sessions := [(1, mkSession PracticeMode.ENGLISH_TO_CHARACTERS exWordGo)] }

/-- Engine fixture for the uppercase-script probe, gloss→script. -/
def gUpper : VocabularyGame :=
  { active_sessions := [(1, mkSession PracticeMode.ENGLISH_TO_CHARACTERS exWordUpper)] }

/-- The engine as freshly constructed: no sessions. -/
def emptyGame : VocabularyGame := { active_sessions := [] }

/-- Placeholder session used only as the default of `Option.getD` in
concrete fixtures (never actually selected). -/
def dummySession : GameSession :=
  { user_state := { user_id := 0, hsk_level := 1, practice_mode := PracticeMode.PINYIN_TO_ENGLISH },
    start_time := 0 }

/-- A one-level vocabulary source holding the verb example word at
level 1. -/
def vocabSource1 : Int → Option (List Word) :=
  fun lvl => if lvl = 1 then some [exWordReturn] else none

/-- The engine and session produced by a first `start_session` on the
fresh engine (user 1, level 1, script→gloss). -/
def startRes : VocabularyGame × GameSession :=
  (start_session vocabSource1 emptyGame 1 1 PracticeMode.CHARACTERS_TO_ENGLISH 0).toOption.getD
    (emptyGame, dummySession)

/-- The engine after additionally drawing a word for user 1. -/
def gDrawn : VocabularyGame := (get_next_word 0 startRes.1 1).1

/-- The engine and verdict after user 1 then answers "return". -/
def checkRes : VocabularyGame × Bool :=
  (check_answer gDrawn 1 "return").getD (gDrawn, false)

/-- The concrete interleaving used to witness the counting property:
one draw, one correct answer, one incorrect answer. -/
def opsEx : List TraceOp :=
  [TraceOp.nextWord 0, TraceOp.checkAns "return", TraceOp.checkAns "wrong"]

/-- The session stored for user 1 after the draw-and-answer run. -/
def sessionAfter : GameSession :=
  (dictGet checkRes.1.active_sessions 1).getD dummySession

theorem dictGet_dictSet (d : List (Int × GameSession)) (k k' : Int) (v : GameSession) :
    dictGet (dictSet d k v) k' = if k = k' then some v else dictGet d k' := by
  induction d with
  | nil => by_cases h : k = k' <;> simp [dictSet, dictGet, h]
  | cons a rest ih =>
      obtain ⟨ka, va⟩ := a
      by_cases hk : ka = k
      · subst hk
        by_cases h : ka = k' <;> simp [dictSet, dictGet, h]
      · by_cases h : ka = k'
        · subst h
          have : k ≠ ka := fun he => hk he.symm
          simp [dictSet, dictGet, hk, this]
        · simp [dictSet, dictGet, hk, h, ih]

theorem mem_of_dictGet {d : List (Int × GameSession)} {k : Int} {v : GameSession}
    (h : dictGet d k = some v) : (k, v) ∈ d := by
  induction d with
  | nil => simp [dictGet] at h
  | cons a rest ih =>
      obtain ⟨ka, va⟩ := a
      by_cases hk : ka = k
      · subst hk
        simp [dictGet] at h
        subst h
        exact List.mem_cons_self _ _
      · simp [dictGet, hk] at h
        exact List.mem_cons_of_mem _ (ih h)

theorem mem_dictSet {d : List (Int × GameSession)} {k : Int} {v : GameSession}
    {e : Int × GameSession} (h : e ∈ dictSet d k v) : e = (k, v) ∨ e ∈ d := by
  induction d with
  | nil => simpa [dictSet] using h
  | cons a rest ih =>
      obtain ⟨ka, va⟩ := a
      by_cases hk : ka = k
      · subst hk
        simp [dictSet] at h
        rcases h with h | h
        · exact Or.inl h
        · exact Or.inr (List.mem_cons_of_mem _ h)
      · simp [dictSet, hk] at h
        rcases h with h | h
        · exact Or.inr (by simp [h])
        · rcases ih h with h' | h'
          · exact Or.inl h'
          · exact Or.inr (List.mem_cons_of_mem _ h')

theorem mem_dictPop {d : List (Int × GameSession)} {k : Int}
    {e : Int × GameSession} (h : e ∈ (dictPop d k).1) : e ∈ d := by
  induction d with
  | nil => simp [dictPop] at h
  | cons a rest ih =>
      obtain ⟨ka, va⟩ := a
      by_cases hk : ka = k
      · subst hk
        simp [dictPop] at h
        exact List.mem_cons_of_mem _ h
      · simp [dictPop, hk] at h
        rcases h with h | h
        · simp [h]
        · exact List.mem_cons_of_mem _ (ih h)

theorem dictPop_of_get_none {d : List (Int × GameSession)} {k : Int}
    (h : dictGet d k = none) : dictPop d k = (d, none) := by
  induction d with
  | nil => simp [dictPop]
  | cons a rest ih =>
      obtain ⟨ka, va⟩ := a
      by_cases hk : ka = k
      · simp [dictGet, hk] at h
      · simp [dictGet, hk] at h
        simp [dictPop, hk, ih h]

/-- C1: the quiz-direction type declared in `src/hsk_bot/models.py` at
HEAD is the superseded two-way enumeration, not the three-way one the
claim (and `game.py`/`bot.py`, which reference the members
`PINYIN_TO_ENGLISH` and `CHARACTERS_TO_ENGLISH`) requires: it has
exactly the two members `CHINESE_TO_ENGLISH` and `ENGLISH_TO_CHINESE`,
while the spec-modelled enumeration the engine code is written against
has exactly three. -/
theorem practice_mode_src_is_two_way :
    Fintype.card PracticeModeSrc = 2 ∧ Fintype.card PracticeMode = 3 ∧
      PracticeModeSrc.value PracticeModeSrc.CHINESE_TO_ENGLISH = "chinese" ∧
      PracticeModeSrc.value PracticeModeSrc.ENGLISH_TO_CHINESE = "english" := by
  refine ⟨by decide, by decide, rfl, rfl⟩

/-- C2: the `Word` pydantic model declared in `src/hsk_bot/models.py`
at HEAD does not carry a part-of-speech field: its field set is
exactly {chinese, pinyin, english, hsk_level}, so the
`word.part_of_speech` access in `_generate_word_variations`
(`game.py` line 157) has no backing attribute. -/
theorem word_src_lacks_part_of_speech :
    "part_of_speech" ∉ wordSrcFields ∧
      "chinese" ∈ wordSrcFields ∧ "pinyin" ∈ wordSrcFields ∧
      "english" ∈ wordSrcFields ∧ "hsk_level" ∈ wordSrcFields := by
  decide

/-- C3: `check_answer` raises (returns `none`) exactly when the user
has no session or the session has no current word — otherwise it
returns a verdict — while `get_next_word` and `end_session` are total
and degrade to an unchanged engine and `none` when no session
exists. -/
theorem check_answer_error_iff (g : VocabularyGame) (uid : Int) (ans : String) (c : Nat) :
    (check_answer g uid ans = none ↔
      dictGet g.active_sessions uid = none ∨
        ∃ s, dictGet g.active_sessions uid = some s ∧
          s.user_state.current_word = none)
    ∧ (dictGet g.active_sessions uid = none →
        get_next_word c g uid = (g, none) ∧ end_session g uid = (g, none)) := by
  constructor
  · cases h : dictGet g.active_sessions uid with
    | none => simp [check_answer, h]
    | some s =>
        cases hw : s.user_state.current_word with
        | none => simp [check_answer, h, hw]
        | some w => simp [check_answer, h, hw]
  · intro h
    refine ⟨by simp [get_next_word, h], ?_⟩
    simp [end_session, dictPop_of_get_none h]

/-- Witness for C3 at the fresh engine: submitting with no session
raises, while drawing and ending are silent no-ops. -/
theorem check_answer_error_iff_witness :
    check_answer emptyGame 1 "x" = none ∧
      get_next_word 0 emptyGame 1 = (emptyGame, none) ∧
      end_session emptyGame 1 = (emptyGame, none) := by
  have h := check_answer_error_iff emptyGame 1 "x" 0
  exact ⟨h.1.mpr (Or.inl rfl), (h.2 rfl).1, (h.2 rfl).2⟩

/-- C8: `load_vocabulary` fails with the invalid-level error for every
level outside the closed range 1–6, for every backing source — the
guard precedes any source access. -/
theorem load_vocabulary_invalid_level (source : Int → Option (List Word))
    (lvl : Int) (h : ¬ (1 ≤ lvl ∧ lvl ≤ 6)) :
    load_vocabulary source lvl = .error .invalidLevel := by
  simp [load_vocabulary, h]

/-- Witness for C8 at levels 0 and 7 over an empty backing source. -/
theorem load_vocabulary_invalid_level_witness :
    load_vocabulary (fun _ => none) 0 = .error .invalidLevel ∧
      load_vocabulary (fun _ => none) 7 = .error .invalidLevel :=
  ⟨load_vocabulary_invalid_level _ 0 (by decide),
   load_vocabulary_invalid_level _ 7 (by decide)⟩

theorem mem_generate_word_variations {w : Word} {t x : String}
    (ht : t ∈ pySplitComma (lower w.english))
    (hx : x ∈ variationsOfSense (lower w.part_of_speech) (strip t)) :
    x ∈ generate_word_variations w := by
  unfold generate_word_variations
  exact List.mem_flatMap.mpr ⟨t, ht, hx⟩

/-- C5: for a verb word the variation set contains, for every sense,
both the sense itself and its infinitive counterpart (the `"to "`
marker stripped when present, prepended otherwise); and on the
concrete verb example 回/"return" in script→gloss direction the inputs
"return", "to return" and "Return" are graded correct while
"returning" is graded incorrect. -/
theorem verb_variations_grading :
    (∀ (w : Word) (t : String), lower w.part_of_speech = "verb" →
        t ∈ pySplitComma (lower w.english) →
        strip t ∈ generate_word_variations w ∧
          (if strStartsWith (strip t) "to " then strDrop (strip t) 3
           else "to " ++ strip t) ∈ generate_word_variations w)
    ∧ (check_answer gVerb 1 "return").map Prod.snd = some true
    ∧ (check_answer gVerb 1 "to return").map Prod.snd = some true
    ∧ (check_answer gVerb 1 "Return").map Prod.snd = some true
    ∧ (check_answer gVerb 1 "returning").map Prod.snd = some false := by
  refine ⟨?_, by decide, by decide, by decide, by decide⟩
  intro w t hpos ht
  constructor
  · refine mem_generate_word_variations ht ?_
    rw [hpos]
    simp [variationsOfSense]
  · refine mem_generate_word_variations ht ?_
    rw [hpos]
    simp [variationsOfSense]

/-- Witness for the universally quantified part of C5 at the example
word: both "return" and "to return" are accepted variants. -/
theorem verb_variations_grading_witness :
    strip "return" ∈ generate_word_variations exWordReturn ∧
      "to return" ∈ generate_word_variations exWordReturn := by
  have h := verb_variations_grading.1 exWordReturn "return" rfl (by decide)
  exact ⟨h.1, h.2⟩

/-- C6: for a noun word the variation set contains, for every sense,
the sense prefixed by each of the articles "a", "an", "the", and —
when the sense does not end in "s" — the naive plural; and on the
concrete noun example 猫/"cat" in romanization→gloss direction the
inputs "a cat" and "cats" are graded correct while "the dog" is graded
incorrect. -/
theorem noun_variations_grading :
    (∀ (w : Word) (t : String), lower w.part_of_speech = "noun" →
        t ∈ pySplitComma (lower w.english) →
        (∀ article ∈ (["a", "an", "the"] : List String),
            article ++ " " ++ strip t ∈ generate_word_variations w) ∧
          (strEndsWith (strip t) "s" = false →
            strip t ++ "s" ∈ generate_word_variations w))
    ∧ (check_answer gNoun 1 "a cat").map Prod.snd = some true
    ∧ (check_answer gNoun 1 "cats").map Prod.snd = some true
    ∧ (check_answer gNoun 1 "the dog").map Prod.snd = some false := by
  refine ⟨?_, by decide, by decide, by decide⟩
  intro w t hpos ht
  constructor
  · intro article ha
    refine mem_generate_word_variations ht ?_
    rw [hpos]
    simp only [variationsOfSense]
    rw [if_pos trivial]
    have hmap : article ++ " " ++ strip t ∈
        List.map (fun a => a ++ " " ++ strip t) (["a", "an", "the"] : List String) :=
      List.mem_map_of_mem _ ha
    refine List.mem_cons_of_mem _ ?_
    exact List.mem_append_left _ (List.mem_append_right _ hmap)
  · intro hs
    refine mem_generate_word_variations ht ?_
    rw [hpos]
    simp only [variationsOfSense]
    rw [if_pos trivial, hs]
    simp

/-- Witness for the universally quantified part of C6 at the example
word: "a cat" and "cats" are accepted variants. -/
theorem noun_variations_grading_witness :
    "a cat" ∈ generate_word_variations exWordCat ∧
      "cats" ∈ generate_word_variations exWordCat := by
  have h := noun_variations_grading.1 exWordCat "cat" rfl (by decide)
  exact ⟨h.1 "a" (by decide), h.2 (by decide)⟩

/-- Counterexample to C7 as stated: grading in the gloss→script
direction is not an exact, case-sensitive match of the trimmed input —
the engine lowercases the user's input first.  For a word whose script
form is "Q", the input "Q" equals the trimmed script form exactly, yet
it is graded incorrect (the engine compares "q" against "Q"). -/
theorem gloss_to_script_not_exact_counterexample :
    strip "Q" = strip exWordUpper.chinese ∧
      (check_answer gUpper 1 "Q").map Prod.snd = some false := by
  decide

/-- C7 (amended): in the gloss→script direction the engine grades by
comparing the lowercased, trimmed input against the trimmed script
form, case-sensitively and with no romanization fallback — which is
exact trimmed matching whenever the script form contains no uppercase
ASCII; concretely 去 is graded correct and "qu" incorrect. -/
theorem gloss_to_script_grading :
    (∀ (g : VocabularyGame) (uid : Int) (ans : String)
        (s : GameSession) (w : Word),
        dictGet g.active_sessions uid = some s →
        s.user_state.practice_mode = PracticeMode.ENGLISH_TO_CHARACTERS →
        s.user_state.current_word = some w →
        (check_answer g uid ans).map Prod.snd =
          some (strip (lower ans) == strip w.chinese))
    ∧ (check_answer gGo 1 "去").map Prod.snd = some true
    ∧ (check_answer gGo 1 "qu").map Prod.snd = some false := by
  refine ⟨?_, by decide, by decide⟩
  intro g uid ans s w hget hmode hword
  simp [check_answer, grade_answer, hget, hword, hmode]

/-- Witness for the universally quantified part of C7 (amended) at the
去 example fixture. -/
theorem gloss_to_script_grading_witness :
    (check_answer gGo 1 "去").map Prod.snd =
      some (strip (lower "去") == strip exWordGo.chinese) :=
  gloss_to_script_grading.1 gGo 1 "去"
    (mkSession PracticeMode.ENGLISH_TO_CHARACTERS exWordGo) exWordGo rfl rfl rfl

/-- C9: when the user already has a session and the level loads, a new
`start_session` call succeeds, stores a session with all three
counters zero, accuracy exactly 0, and the freshly loaded word-list
snapshot, and that session — not the previous one — is what the
engine now holds for the user. -/
theorem start_session_resets (source : Int → Option (List Word))
    (g : VocabularyGame) (uid lvl : Int) (mode : PracticeMode) (now : Int)
    (vocab : List Word) (s0 : GameSession) (g' : VocabularyGame) (s : GameSession)
    (_hprev : dictGet g.active_sessions uid = some s0)
    (hload : load_vocabulary source lvl = .ok vocab)
    (hstart : start_session source g uid lvl mode now = .ok (g', s)) :
    dictGet g'.active_sessions uid = some s ∧
      s.user_state.score = 0 ∧ s.user_state.total_attempts = 0 ∧
      s.user_state.correct_attempts = 0 ∧ s.user_state.accuracy = 0 ∧
      s.vocabulary = vocab ∧ s.user_state.current_word = none := by
  have hb : 1 ≤ lvl ∧ lvl ≤ 6 := by
    by_contra hb
    simp [load_vocabulary, hb] at hload
  rw [start_session, if_neg (not_not_intro hb), hload] at hstart
  have hp := Except.ok.inj hstart
  rw [Prod.mk.injEq] at hp
  obtain ⟨hg', hs⟩ := hp
  subst hg'
  subst hs
  refine ⟨?_, rfl, rfl, rfl, by simp [UserState.accuracy], rfl, rfl⟩
  simp [dictGet_dictSet]

/-- Witness for C9: restarting user 1's session on the concrete
fixture resets everything and installs the fresh snapshot. -/
theorem start_session_resets_witness :
    dictGet ((start_session vocabSource1 gVerb 1 1 PracticeMode.PINYIN_TO_ENGLISH 5).toOption.getD
        (emptyGame, dummySession)).1.active_sessions 1 =
      some ((start_session vocabSource1 gVerb 1 1 PracticeMode.PINYIN_TO_ENGLISH 5).toOption.getD
        (emptyGame, dummySession)).2 ∧
      ((start_session vocabSource1 gVerb 1 1 PracticeMode.PINYIN_TO_ENGLISH 5).toOption.getD
        (emptyGame, dummySession)).2.user_state.score = 0 ∧
      ((start_session vocabSource1 gVerb 1 1 PracticeMode.PINYIN_TO_ENGLISH 5).toOption.getD
        (emptyGame, dummySession)).2.user_state.total_attempts = 0 ∧
      ((start_session vocabSource1 gVerb 1 1 PracticeMode.PINYIN_TO_ENGLISH 5).toOption.getD
        (emptyGame, dummySession)).2.user_state.correct_attempts = 0 ∧
      ((start_session vocabSource1 gVerb 1 1 PracticeMode.PINYIN_TO_ENGLISH 5).toOption.getD
        (emptyGame, dummySession)).2.user_state.accuracy = 0 ∧
      ((start_session vocabSource1 gVerb 1 1 PracticeMode.PINYIN_TO_ENGLISH 5).toOption.getD
        (emptyGame, dummySession)).2.vocabulary = [exWordReturn] ∧
      ((start_session vocabSource1 gVerb 1 1 PracticeMode.PINYIN_TO_ENGLISH 5).toOption.getD
        (emptyGame, dummySession)).2.user_state.current_word = none :=
  start_session_resets vocabSource1 gVerb 1 1 PracticeMode.PINYIN_TO_ENGLISH 5
    [exWordReturn] (mkSession PracticeMode.CHARACTERS_TO_ENGLISH exWordReturn)
    _ _ rfl rfl rfl

theorem sessionCounters_get_next_word (c : Nat) (g : VocabularyGame) (u u' : Int) :
    sessionCounters (get_next_word c g u).1 u' = sessionCounters g u' := by
  cases h : dictGet g.active_sessions u with
  | none => simp [get_next_word, h]
  | some s =>
      by_cases hl : s.vocabulary.length = 0
      · simp [get_next_word, h, hl]
      · simp only [get_next_word, h, hl, dite_false]
        rw [sessionCounters, dictGet_dictSet]
        by_cases hu : u = u'
        · subst hu
          simp [sessionCounters, h]
        · simp [sessionCounters, hu]

theorem sessionCounters_check_answer {g g' : VocabularyGame} {u : Int} {a : String}
    {b : Bool} {t c : Int} (h : check_answer g u a = some (g', b))
    (hc : sessionCounters g u = some (t, c)) :
    sessionCounters g' u = some (t + 1, if b then c + 1 else c) := by
  cases hget : dictGet g.active_sessions u with
  | none => simp [check_answer, hget] at h
  | some s =>
      cases hw : s.user_state.current_word with
      | none => simp [check_answer, hget, hw] at h
      | some w =>
          simp only [check_answer, hget, hw] at h
          have hp := Option.some.inj h
          rw [Prod.mk.injEq] at hp
          obtain ⟨hg', hb⟩ := hp
          subst hg'
          subst hb
          simp only [sessionCounters, hget, Option.map_some] at hc
          have hct : s.user_state.total_attempts = t := congrArg Prod.fst (Option.some.inj hc)
          have hcc : s.user_state.correct_attempts = c := congrArg Prod.snd (Option.some.inj hc)
          rw [sessionCounters, dictGet_dictSet, if_pos rfl]
          simp [record_attempt, hct, hcc]

theorem runTrace_counters (uid : Int) :
    ∀ (ops : List TraceOp) (g : VocabularyGame) (t c : Int),
      sessionCounters g uid = some (t, c) →
      sessionCounters (runTrace uid g ops).1 uid =
        some (t + ((runTrace uid g ops).2.length : Int),
          c + ((runTrace uid g ops).2.count true : Int)) := by
  intro ops
  induction ops with
  | nil =>
      intro g t c hc
      simpa [runTrace] using hc
  | cons op rest ih =>
      intro g t c hc
      cases op with
      | nextWord ch =>
          have hpres := sessionCounters_get_next_word ch g uid uid
          have := ih (get_next_word ch g uid).1 t c (hpres.trans hc)
          simpa [runTrace] using this
      | checkAns a =>
          cases h : check_answer g uid a with
          | none =>
              have := ih g t c hc
              simpa [runTrace, h] using this
          | some p =>
              obtain ⟨g', b⟩ := p
              have hstep := sessionCounters_check_answer h hc
              have := ih g' (t + 1) (if b then c + 1 else c) hstep
              rw [runTrace]
              simp only [h]
              rw [this]
              cases b
              · simp [List.count_cons]
                omega
              · simp [List.count_cons]
                try exact ⟨trivial, trivial⟩
                try omega

/-- C4: starting from a fresh session (both attempt counters zero), any
interleaving of `check_answer` submissions and `get_next_word` draws
leaves `total_attempts` equal to the number N of submissions that
returned a verdict, `correct_attempts` equal to the number C of
correct ones, and the session's accuracy equal to 0 when N = 0 and
100·C/N otherwise. -/
theorem accuracy_after_trace (g : VocabularyGame) (uid : Int) (ops : List TraceOp)
    (s0 : GameSession) (hs : dictGet g.active_sessions uid = some s0)
    (ht0 : s0.user_state.total_attempts = 0)
    (hc0 : s0.user_state.correct_attempts = 0) :
    sessionCounters (runTrace uid g ops).1 uid =
      some ((((runTrace uid g ops).2.length : Int)),
        (((runTrace uid g ops).2.count true : Int))) ∧
    (dictGet (runTrace uid g ops).1.active_sessions uid).map
        (fun s => s.user_state.accuracy) =
      some (if (runTrace uid g ops).2.length = 0 then 0
        else 100 * ((runTrace uid g ops).2.count true : ℚ) /
          ((runTrace uid g ops).2.length : ℚ)) := by
  have hc : sessionCounters g uid = some (0, 0) := by
    simp [sessionCounters, hs, ht0, hc0]
  have hrun := runTrace_counters uid ops g 0 0 hc
  simp only [zero_add] at hrun
  refine ⟨hrun, ?_⟩
  obtain ⟨s', hg'⟩ :
      ∃ s', dictGet (runTrace uid g ops).1.active_sessions uid = some s' := by
    cases hg : dictGet (runTrace uid g ops).1.active_sessions uid with
    | none => rw [sessionCounters, hg] at hrun; exact absurd hrun (by simp)
    | some s' => exact ⟨s', rfl⟩
  rw [sessionCounters, hg'] at hrun
  rw [Option.map_some'] at hrun
  have ht : s'.user_state.total_attempts = ((runTrace uid g ops).2.length : Int) :=
    congrArg Prod.fst (Option.some.inj hrun)
  have hcnt : s'.user_state.correct_attempts = ((runTrace uid g ops).2.count true : Int) :=
    congrArg Prod.snd (Option.some.inj hrun)
  rw [hg', Option.map_some']
  refine congrArg some ?_
  rw [UserState.accuracy, ht, hcnt]
  by_cases hn : (runTrace uid g ops).2.length = 0
  · simp [hn]
  · rw [if_neg (by exact_mod_cast hn), if_neg hn]
    push_cast
    ring

/-- Witness for C4 on the concrete fixture: a draw, a correct answer
and an incorrect one yield counters (2, 1) and accuracy 50. -/
theorem accuracy_after_trace_witness :
    sessionCounters (runTrace 1 startRes.1 opsEx).1 1 =
      some ((((runTrace 1 startRes.1 opsEx).2.length : Int)),
        (((runTrace 1 startRes.1 opsEx).2.count true : Int))) ∧
    (dictGet (runTrace 1 startRes.1 opsEx).1.active_sessions 1).map
        (fun s => s.user_state.accuracy) =
      some (if (runTrace 1 startRes.1 opsEx).2.length = 0 then 0
        else 100 * ((runTrace 1 startRes.1 opsEx).2.count true : ℚ) /
          ((runTrace 1 startRes.1 opsEx).2.length : ℚ)) :=
  accuracy_after_trace startRes.1 1 opsEx startRes.2 rfl rfl rfl

theorem InvState_record_attempt (st : UserState) (ok : Bool)
    (h : InvState st) : InvState (record_attempt st ok) := by
  obtain ⟨h1, h2, h3⟩ := h
  cases ok <;> simp [InvState, record_attempt] <;> omega

theorem invGame_start {source : Int → Option (List Word)} {g : VocabularyGame}
    {uid lvl : Int} {mode : PracticeMode} {now : Int}
    {g' : VocabularyGame} {s : GameSession}
    (h : start_session source g uid lvl mode now = .ok (g', s))
    (hg : InvGame g) : InvGame g' := by
  by_cases hb : 1 ≤ lvl ∧ lvl ≤ 6
  · rw [start_session, if_neg (not_not_intro hb)] at h
    cases hload : load_vocabulary source lvl with
    | error e => rw [hload] at h; exact absurd h (by simp)
    | ok vocab =>
        rw [hload] at h
        have hp := Except.ok.inj h
        rw [Prod.mk.injEq] at hp
        obtain ⟨hg', _⟩ := hp
        subst hg'
        intro e he
        rcases mem_dictSet he with rfl | he'
        · exact ⟨le_rfl, rfl, le_rfl⟩
        · exact hg e he'
  · rw [start_session, if_pos hb] at h
    exact absurd h (by simp)

theorem invGame_next (c : Nat) (g : VocabularyGame) (uid : Int)
    (hg : InvGame g) : InvGame (get_next_word c g uid).1 := by
  cases h : dictGet g.active_sessions uid with
  | none => simpa [get_next_word, h] using hg
  | some s =>
      by_cases hl : s.vocabulary.length = 0
      · simpa [get_next_word, h, hl] using hg
      · simp only [get_next_word, h, hl, dite_false]
        intro e he
        rcases mem_dictSet he with rfl | he'
        · exact hg (uid, s) (mem_of_dictGet h)
        · exact hg e he'

theorem invGame_check {g g' : VocabularyGame} {uid : Int} {a : String} {b : Bool}
    (h : check_answer g uid a = some (g', b)) (hg : InvGame g) : InvGame g' := by
  cases hget : dictGet g.active_sessions uid with
  | none => simp [check_answer, hget] at h
  | some s =>
      cases hw : s.user_state.current_word with
      | none => simp [check_answer, hget, hw] at h
      | some w =>
          simp only [check_answer, hget, hw] at h
          have hp := Option.some.inj h
          rw [Prod.mk.injEq] at hp
          obtain ⟨hg', _⟩ := hp
          subst hg'
          intro e he
          rcases mem_dictSet he with rfl | he'
          · exact InvState_record_attempt _ _ (hg (uid, s) (mem_of_dictGet hget))
          · exact hg e he'

theorem invGame_end (g : VocabularyGame) (uid : Int) (hg : InvGame g) :
    InvGame (end_session g uid).1 := by
  intro e he
  exact hg e (mem_dictPop he)

theorem invGame_reachable {g : VocabularyGame} (h : Reachable g) : InvGame g := by
  induction h with
  | init => intro e he; simp at he
  | start source g uid lvl mode now g' s hr heq ih => exact invGame_start heq ih
  | next c g uid hr ih => exact invGame_next c g uid ih
  | answer g uid a g' b hr heq ih => exact invGame_check heq ih
  | stop g uid hr ih => exact invGame_end g uid ih

theorem accuracy_bounds {u : UserState} (h : InvState u) :
    0 ≤ u.accuracy ∧ u.accuracy ≤ 100 := by
  obtain ⟨h1, h2, h3⟩ := h
  rw [UserState.accuracy]
  by_cases ht : u.total_attempts = 0
  · rw [if_pos ht]
    norm_num
  · rw [if_neg ht]
    have htpos : 0 < u.total_attempts := by omega
    have hc0 : 0 ≤ u.correct_attempts := by omega
    have hq1 : (0 : ℚ) < (u.total_attempts : ℚ) := by exact_mod_cast htpos
    have hq2 : (0 : ℚ) ≤ (u.correct_attempts : ℚ) := by exact_mod_cast hc0
    have hq3 : (u.correct_attempts : ℚ) ≤ (u.total_attempts : ℚ) := by exact_mod_cast h3
    constructor
    · exact mul_nonneg (div_nonneg hq2 hq1.le) (by norm_num)
    · have hdiv : (u.correct_attempts : ℚ) / (u.total_attempts : ℚ) ≤ 1 :=
        (div_le_one hq1).mpr hq3
      calc (u.correct_attempts : ℚ) / (u.total_attempts : ℚ) * 100
          ≤ 1 * 100 := mul_le_mul_of_nonneg_right hdiv (by norm_num)
        _ = 100 := by norm_num

/-- C10: in every reachable engine state, every stored session
satisfies `0 ≤ score = correct_attempts ≤ total_attempts`, and its
accuracy lies in [0, 100]. -/
theorem session_counter_invariant (g : VocabularyGame) (uid : Int) (s : GameSession)
    (hr : Reachable g) (hget : dictGet g.active_sessions uid = some s) :
    0 ≤ s.user_state.score ∧
      s.user_state.score = s.user_state.correct_attempts ∧
      s.user_state.correct_attempts ≤ s.user_state.total_attempts ∧
      0 ≤ s.user_state.accuracy ∧ s.user_state.accuracy ≤ 100 := by
  have hI : InvState s.user_state :=
    invGame_reachable hr (uid, s) (mem_of_dictGet hget)
  obtain ⟨h1, h2, h3⟩ := hI
  have hb := accuracy_bounds ⟨h1, h2, h3⟩
  exact ⟨h1, h2, h3, hb.1, hb.2⟩

/-- Witness for C10 on a concrete reachable state: start a session,
draw a word, answer once, and the stored session satisfies the
invariant and accuracy bounds. -/
theorem session_counter_invariant_witness :
    0 ≤ sessionAfter.user_state.score ∧
      sessionAfter.user_state.score = sessionAfter.user_state.correct_attempts ∧
      sessionAfter.user_state.correct_attempts ≤ sessionAfter.user_state.total_attempts ∧
      0 ≤ sessionAfter.user_state.accuracy ∧ sessionAfter.user_state.accuracy ≤ 100 := by
  have hr : Reachable checkRes.1 := by
    refine Reachable.answer gDrawn 1 "return" checkRes.1 checkRes.2 ?_ rfl
    refine Reachable.next 0 startRes.1 1 ?_
    exact Reachable.start vocabSource1 emptyGame 1 1 PracticeMode.CHARACTERS_TO_ENGLISH 0
      startRes.1 startRes.2 Reachable.init rfl
  exact session_counter_invariant checkRes.1 1 sessionAfter hr rfl

end HskBot
